import Mathlib

/-!
Verification of the text-editing heuristics of a code-editor component.

The editor component (CodeEditor.tsx) is embedded here over `List Char`
documents with `Int` cursor offsets, matching the JavaScript semantics of
`String.prototype.substring` (negative bounds clamp to 0), bracket reads
(`s[i]` is undefined, read back as the empty string, outside `[0, length)`),
and `Math.max(x - y, 0)` (truncated subtraction on naturals).

The helper modules `braces.ts`, `indentation.ts` and `strings.ts` are
imported by the component but are not part of the available sources; their
definitions below are modelled from the specification and are marked as
such in their doc comments.
-/

namespace CodeEdit

/-- The tab character. -/
def tabChar : Char := Char.ofNat 9

/-- The newline character. -/
def nlChar : Char := Char.ofNat 10

/-- The space character. -/
def spaceChar : Char := Char.ofNat 32

/-- The backquote character (code point 96). -/
def backquoteChar : Char := Char.ofNat 96

/-- The single-quote character (code point 39). -/
def squoteChar : Char := Char.ofNat 39

/-- The double-quote character (code point 34). -/
def dquoteChar : Char := Char.ofNat 34

/-- Modelled from the spec: the Brace Pair Table of the missing module
braces.ts. It maps each opening delimiter (brace, bracket, paren and the
three quote characters) to its closing counterpart; every other character
is absent from the table. -/
def getCloseBraceChar (c : Char) : Option Char :=
  if c = '{' then some '}'
  else if c = '[' then some ']'
  else if c = '(' then some ')'
  else if c = dquoteChar then some dquoteChar
  else if c = squoteChar then some squoteChar
  else if c = backquoteChar then some backquoteChar
  else none

/-- Modelled from the spec: braces.getCloseBrace as used by the editor to
obtain the text to insert; a character outside the table yields the empty
string (an empty character list). -/
def getCloseBraceStr (c : Char) : List Char :=
  match getCloseBraceChar c with
  | some d => [d]
  | none => []

/-- Modelled from the spec: braces.isOpenBrace, true iff the character is a
key of the Brace Pair Table. -/
def isOpenBrace (c : Char) : Bool :=
  (getCloseBraceChar c).isSome

/-- Modelled from the spec: braces.isRegularBrace, true for the nesting
delimiters and false for the quote-like ones. -/
def isRegularBrace (c : Char) : Bool :=
  c = '{' || c = '[' || c = '('

/-- A closing nesting delimiter. -/
def isRegularClose (c : Char) : Bool :=
  c = '}' || c = ']' || c = ')'

/-- Modelled from the spec: braces.isBracePair lifted to the JavaScript
reading of one-character strings, where `none` plays the empty string
obtained for an out-of-range index. The pair holds iff the left side is an
opening delimiter and the right side equals its table-defined closer. -/
def isBracePair : Option Char → Option Char → Bool
  | some l, some r => isOpenBrace l && (getCloseBraceChar l == some r)
  | _, _ => false

/-- isRegularBrace on the same optional-character reading; the empty string
is not a regular brace. -/
def isRegularBraceO : Option Char → Bool
  | some c => isRegularBrace c
  | none => false

/-- Modelled from the spec: the configured Indent Unit width of the missing
module indentation.ts (a positive integer, default 2). -/
def INDENT_SIZE : Nat := 2

/-- Modelled from the spec: indentation.createIndentString renders an
indentation of the given width as a fixed-width run of spaces, so that the
length of the rendered indentation equals its size argument. -/
def createIndentString (size : Nat) : List Char :=
  List.replicate size spaceChar

/-- Modelled from the spec: the Indent Unit for a configurable unit width,
a fixed-width run of spaces. -/
def indentUnit (w : Nat) : List Char :=
  List.replicate w spaceChar

/-- Modelled from the spec: indentString renders an indentation level as
that many repetitions of the Indent Unit. -/
def indentString (w level : Nat) : List Char :=
  (List.replicate level (indentUnit w)).flatten

/-- The running-depth contribution of one character: +1 for an opening
nesting delimiter, -1 for a closing one, 0 otherwise. -/
def braceDelta (c : Char) : Int :=
  if isRegularBrace c then 1 else if isRegularClose c then -1 else 0

/-- Modelled from the spec: the final running brace depth of the preceding
lines, counting net opens minus closes among the nesting delimiters. -/
def braceDepth (lines : List (List Char)) : Int :=
  (lines.flatten.map braceDelta).sum

/-- Modelled from the spec: indentation.getSuggestedIndentSize scans the
preceding lines tracking a running brace-depth counter and returns the
final depth clamped to be nonnegative, scaled to an indentation size (a
width in characters, one Indent Unit per depth level). -/
def getSuggestedIndentSize (lines : List (List Char)) : Nat :=
  INDENT_SIZE * (braceDepth lines).toNat

/-- Modelled from the spec: strings.convertTabsToSpaces replaces every
literal tab character with the Indent Unit's fixed-width space
equivalent and leaves every other character unchanged. -/
def convertTabsToSpaces : List Char → List Char
  | [] => []
  | c :: cs =>
    (if c = tabChar then createIndentString INDENT_SIZE else [c]) ++ convertTabsToSpaces cs

/-- Modelled from the spec: strings.insertStringAt inserts text immediately
after the character position `i`, i.e. at offset `i + 1`, with the
JavaScript substring clamping for out-of-range bounds. -/
def insertStringAt (s : List Char) (i : Int) (ins : List Char) : List Char :=
  s.take (i + 1).toNat ++ ins ++ s.drop (i + 1).toNat

/-- The JavaScript one-character read s[i], as an optional character:
defined exactly for indices within `[0, length)`. -/
def charAt (s : List Char) (i : Int) : Option Char :=
  if i < 0 then none else s[i.toNat]?

/-- The JavaScript split on the newline character: the list of lines of a
document, never empty (an empty document has one empty line). -/
def splitLines : List Char → List (List Char)
  | [] => [[]]
  | c :: cs =>
    if c = nlChar then [] :: splitLines cs
    else
      match splitLines cs with
      | [] => [[c]]
      | l :: ls => (c :: l) :: ls

/-- The addIndentation handler of CodeEditor.tsx. Given the current
document `val` (which already holds the newline the platform inserted for
the Enter keypress) and the current selection start, it computes
`cursorPosition = selectionStart - 1`, derives the suggested indentation
from the lines before the cursor, and inserts it after the newline; when
the characters around the newline form a matched brace pair it instead
inserts two indented lines and moves the explicitly-set cursor backward by
the size of the second line's indentation. The second component is the
selection explicitly set through moveCursor (`none` when moveCursor is not
called on this path). -/
def addIndentation (val : List Char) (selStart : Int) : List Char × Option Int :=
  let cursorPosition : Int := selStart - 1
  let preLines := splitLines (val.take cursorPosition.toNat)
  let indentSize := getSuggestedIndentSize preLines
  let indentation := createIndentString indentSize
  let leftChar := charAt val (cursorPosition - 1)
  let rightChar := charAt val (cursorPosition + 1)
  if isBracePair leftChar rightChar then
    let addedIndentionSize :=
      if isRegularBraceO leftChar then indentSize - INDENT_SIZE else indentSize
    let indentation2 := indentation ++ nlChar :: createIndentString addedIndentionSize
    (insertStringAt val cursorPosition indentation2,
      some (cursorPosition - (addedIndentionSize : Int)))
  else
    (insertStringAt val cursorPosition indentation, none)

/-- The addClosingBrace handler of CodeEditor.tsx. Given the current
document (which already holds the opening delimiter the user typed) and
the selection start, it moves the explicitly-set cursor back by one and
inserts the table-defined closing character immediately after the moved
position. -/
def addClosingBrace (val : List Char) (selStart : Int) (key : Char) : List Char × Option Int :=
  let cursorPosition := selStart - 1
  (insertStringAt val cursorPosition (getCloseBraceStr key), some cursorPosition)

/-- The document with a newline inserted at a collapsed selection offset,
as the platform text input produces it on an Enter keypress. -/
def nlInserted (doc : List Char) (sel : Nat) : List Char :=
  doc.take sel ++ nlChar :: doc.drop sel

/-- Modelled from the spec: the platform text input inserts the newline at
the collapsed selection offset and advances the selection by one before
the Enter handler runs (the spec fixes `cursorPosition = selectionStart - 1`
as the offset of the newline just inserted, the character just before the
new cursor). `enterPress` composes that insertion with addIndentation. -/
def enterPress (doc : List Char) (sel : Nat) : List Char × Option Int :=
  addIndentation (nlInserted doc sel) ((sel : Int) + 1)

/-- One editor input event: a text change from the platform, an Enter
keypress at a collapsed selection, or a printable keypress at a collapsed
selection. -/
inductive EditorEvent where
  | changeText : List Char → EditorEvent
  | enterKey : Nat → EditorEvent
  | braceKey : Char → Int → EditorEvent

/-- One step of the editor's value state, following CodeEditor.tsx: a text
change is accepted through convertTabsToSpaces; an Enter keypress applies
addIndentation; any other keypress applies addClosingBrace exactly when the
key is an opening delimiter. -/
def applyEvent (v : List Char) : EditorEvent → List Char
  | .changeText t => convertTabsToSpaces t
  | .enterKey s => (enterPress v s).1
  | .braceKey k s => if isOpenBrace k then (addClosingBrace v s k).1 else v

/-- The editor's value after a sequence of events, starting from the
initial value, which CodeEditor.tsx stores without normalization. -/
def editorRun (init : List Char) (evs : List EditorEvent) : List Char :=
  evs.foldl applyEvent init

/-- The suggested indentation size at a collapsed selection of a document:
what addIndentation computes from the lines before the cursor. -/
def suggestedAt (doc : List Char) (sel : Nat) : Nat :=
  getSuggestedIndentSize (splitLines (doc.take sel))

/-- The size of the second inserted line's indentation on a brace-pair
Enter expansion: one Indent Unit less than the suggestion for a regular
(nesting) opener, the unchanged suggestion for a quote-like opener. -/
def addedSize (doc : List Char) (sel : Nat) : Nat :=
  if isRegularBraceO (charAt doc ((sel : Int) - 1)) then suggestedAt doc sel - INDENT_SIZE
  else suggestedAt doc sel

/-- The suggested indentation size as addIndentation computes it from a
raw selection start: the suggestion for the lines before the newline
offset. -/
def pairSuggested (val : List Char) (selStart : Int) : Nat :=
  getSuggestedIndentSize (splitLines (val.take (selStart - 1).toNat))

/-- The second-line indentation size as addIndentation computes it from a
raw selection start on the brace-pair path. -/
def pairAdded (val : List Char) (selStart : Int) : Nat :=
  if isRegularBraceO (charAt val (selStart - 1 - 1)) then pairSuggested val selStart - INDENT_SIZE
  else pairSuggested val selStart

/-- A character that is a nesting delimiter, opening or closing. -/
def isNestingDelim (c : Char) : Bool :=
  isRegularBrace c || isRegularClose c

/-- The closing nesting delimiter matching an opening one. -/
def matchingCloseOf (c : Char) : Char :=
  if c = '{' then '}' else if c = '[' then ']' else ')'

/-- A balanced sequence of nesting delimiters: empty, a balanced sequence
wrapped in a matching open/close pair, or two balanced sequences in a
row. -/
inductive BalancedDelims : List Char → Prop
  | nil : BalancedDelims []
  | wrap (o : Char) (l : List Char) (h : isRegularBrace o = true) :
      BalancedDelims l → BalancedDelims (o :: l ++ [matchingCloseOf o])
  | app (l₁ l₂ : List Char) :
      BalancedDelims l₁ → BalancedDelims l₂ → BalancedDelims (l₁ ++ l₂)

theorem tab_not_mem_createIndentString (n : Nat) : tabChar ∉ createIndentString n :=
  fun h => absurd (List.eq_of_mem_replicate h) (by decide)

theorem tab_not_mem_convertTabsToSpaces (s : List Char) : tabChar ∉ convertTabsToSpaces s := by
  induction s with
  | nil => simp [convertTabsToSpaces]
  | cons c cs ih =>
    intro hmem
    rcases List.mem_append.1 hmem with h | h
    · by_cases hc : c = tabChar
      · rw [if_pos hc] at h
        exact tab_not_mem_createIndentString _ h
      · rw [if_neg hc] at h
        rcases List.mem_singleton.1 h with rfl
        exact hc rfl
    · exact ih h

theorem convertTabsToSpaces_eq_of_no_tab (s : List Char) (h : tabChar ∉ s) :
    convertTabsToSpaces s = s := by
  induction s with
  | nil => rfl
  | cons c cs ih =>
    have hc : ¬ c = tabChar := fun hce => h (hce ▸ List.mem_cons_self c cs)
    have hcs : tabChar ∉ cs := fun hm => h (List.mem_cons_of_mem _ hm)
    simp [convertTabsToSpaces, if_neg hc, ih hcs]

/-- C6: convertTabsToSpaces (the spec's expandTabs) is a total function
replacing every tab by the Indent Unit's run of spaces; it is idempotent
and its output contains no tab character. -/
theorem C6_expandTabs_idempotent_no_tab (s : List Char) :
    convertTabsToSpaces (convertTabsToSpaces s) = convertTabsToSpaces s
      ∧ tabChar ∉ convertTabsToSpaces s :=
  ⟨convertTabsToSpaces_eq_of_no_tab _ (tab_not_mem_convertTabsToSpaces s),
    tab_not_mem_convertTabsToSpaces s⟩

/-- C8: indentString 0 is empty, and indentString renders a level as
exactly that many repetitions of the Indent Unit, so its length is the
level times the unit width; the result is a list, never of negative or
fractional width. -/
theorem C8_indentString_length (w n : Nat) :
    indentString w 0 = []
      ∧ indentString w n = (List.replicate n (indentUnit w)).flatten
      ∧ (indentString w n).length = n * w := by
  refine ⟨rfl, rfl, ?_⟩
  induction n with
  | zero => simp [indentString]
  | succ m ih =>
    simp only [indentString, List.replicate_succ, List.flatten_cons] at ih ⊢
    simp [List.length_append, ih, indentUnit, Nat.succ_mul, Nat.add_comm]

/-- C9: every key of the Brace Pair Table forms a brace pair with its
table-defined closing character. -/
theorem C9_open_pairs_with_closer (c : Char) (h : isOpenBrace c = true) :
    isBracePair (some c) (getCloseBraceChar c) = true := by
  cases hc : getCloseBraceChar c with
  | none => unfold isOpenBrace at h; rw [hc] at h; simp at h
  | some d => simp [isBracePair, isOpenBrace, hc, h]

/-- C9 witness: the opening curly brace pairs with its table closer. -/
theorem C9_open_pairs_with_closer_witness :
    isOpenBrace '{' = true ∧ isBracePair (some '{') (getCloseBraceChar '{') = true :=
  ⟨by decide, C9_open_pairs_with_closer '{' (by decide)⟩

theorem tab_not_mem_insertStringAt (s ins : List Char) (i : Int)
    (hs : tabChar ∉ s) (hi : tabChar ∉ ins) : tabChar ∉ insertStringAt s i ins := by
  intro h
  simp only [insertStringAt, List.mem_append] at h
  rcases h with h | h
  · rcases h with h | h
    · exact hs (List.take_subset _ _ h)
    · exact hi h
  · exact hs (List.drop_subset _ _ h)

theorem tab_not_mem_expansion (a b : Nat) :
    tabChar ∉ createIndentString a ++ nlChar :: createIndentString b := by
  intro h
  rcases List.mem_append.1 h with h | h
  · exact tab_not_mem_createIndentString _ h
  · rcases List.mem_cons.1 h with h | h
    · exact absurd h (by decide)
    · exact tab_not_mem_createIndentString _ h

theorem tab_not_mem_addIndentation (v : List Char) (s : Int) (hv : tabChar ∉ v) :
    tabChar ∉ (addIndentation v s).1 := by
  simp only [addIndentation]
  split
  · exact tab_not_mem_insertStringAt _ _ _ hv (tab_not_mem_expansion _ _)
  · exact tab_not_mem_insertStringAt _ _ _ hv (tab_not_mem_createIndentString _)

theorem tab_not_mem_enterPress (v : List Char) (s : Nat) (hv : tabChar ∉ v) :
    tabChar ∉ (enterPress v s).1 := by
  apply tab_not_mem_addIndentation
  intro h
  rcases List.mem_append.1 h with h | h
  · exact hv (List.take_subset _ _ h)
  · rcases List.mem_cons.1 h with h | h
    · exact absurd h (by decide)
    · exact hv (List.drop_subset _ _ h)

theorem getCloseBraceChar_ne_some_tab (c : Char) : getCloseBraceChar c ≠ some tabChar := by
  unfold getCloseBraceChar
  repeat' split
  all_goals decide

theorem tab_not_mem_getCloseBraceStr (c : Char) : tabChar ∉ getCloseBraceStr c := by
  have hne := getCloseBraceChar_ne_some_tab c
  unfold getCloseBraceStr
  cases hc : getCloseBraceChar c with
  | none => simp
  | some d =>
    rw [hc] at hne
    simp only [List.mem_singleton]
    intro h
    exact hne (by rw [h])

theorem tab_not_mem_applyEvent (v : List Char) (e : EditorEvent) (hv : tabChar ∉ v) :
    tabChar ∉ applyEvent v e := by
  cases e with
  | changeText t => exact tab_not_mem_convertTabsToSpaces t
  | enterKey s => exact tab_not_mem_enterPress v s hv
  | braceKey k s =>
    simp only [applyEvent]
    split
    · exact tab_not_mem_insertStringAt _ _ _ hv (tab_not_mem_getCloseBraceStr k)
    · exact hv

/-- C3 counterexample: the initial value is stored without normalization,
so an initial value holding a raw tab gives a reachable Document holding a
raw tab. -/
theorem C3_initial_tab_cex : tabChar ∈ editorRun [tabChar] [] := by decide

/-- C3 amended: every reachable Document is tab-free provided the initial
value is tab-free; a user text change is normalized and the programmatic
indentation and brace insertions never introduce a tab. -/
theorem C3_no_tab_invariant (init : List Char) (evs : List EditorEvent)
    (h : tabChar ∉ init) : tabChar ∉ editorRun init evs := by
  induction evs generalizing init with
  | nil => exact h
  | cons e evs ih => exact ih _ (tab_not_mem_applyEvent _ _ h)

/-- C3 amended witness: a concrete run from a tab-free initial value stays
tab-free through a text change holding a tab and an Enter keypress. -/
theorem C3_no_tab_invariant_witness :
    tabChar ∉ editorRun ['a'] [EditorEvent.changeText [tabChar, 'b'], EditorEvent.enterKey 1] :=
  C3_no_tab_invariant _ _ (by decide)

theorem braceDelta_matchingCloseOf (o : Char) : braceDelta (matchingCloseOf o) = -1 := by
  unfold matchingCloseOf
  repeat' split
  all_goals decide

theorem braceDelta_of_regular (o : Char) (h : isRegularBrace o = true) : braceDelta o = 1 := by
  unfold braceDelta
  rw [if_pos h]

theorem sum_braceDelta_of_balanced (l : List Char) (h : BalancedDelims l) :
    (l.map braceDelta).sum = 0 := by
  induction h with
  | nil => simp
  | wrap o l ho _ ih =>
    simp [List.map_append, List.sum_append, braceDelta_of_regular o ho,
      braceDelta_matchingCloseOf, ih]
  | app l₁ l₂ _ _ ih₁ ih₂ => simp [List.map_append, List.sum_append, ih₁, ih₂]

theorem braceDelta_eq_zero_of_not_nesting (c : Char) (h : isNestingDelim c = false) :
    braceDelta c = 0 := by
  have h' : isRegularBrace c = false ∧ isRegularClose c = false := by
    simpa [isNestingDelim] using h
  simp [braceDelta, h'.1, h'.2]

theorem sum_braceDelta_filter (l : List Char) :
    (l.map braceDelta).sum = ((l.filter isNestingDelim).map braceDelta).sum := by
  induction l with
  | nil => rfl
  | cons c cs ih =>
    cases hc : isNestingDelim c with
    | true => simp [List.filter_cons, hc, ih]
    | false => simp [List.filter_cons, hc, ih, braceDelta_eq_zero_of_not_nesting c hc]

/-- C7: the suggested indent size is total and never negative, it is the
final running brace depth clamped to be nonnegative (scaled by the unit
width), the empty sequence of preceding lines yields 0, and any sequence
of lines whose nesting delimiters form a balanced sequence yields 0. -/
theorem C7_suggested_indent_clamped :
    getSuggestedIndentSize [] = 0
      ∧ (∀ lines : List (List Char),
          getSuggestedIndentSize lines = INDENT_SIZE * (braceDepth lines).toNat)
      ∧ ∀ lines : List (List Char),
          BalancedDelims (lines.flatten.filter isNestingDelim) →
          getSuggestedIndentSize lines = 0 := by
  refine ⟨rfl, fun lines => rfl, fun lines h => ?_⟩
  have h0 : braceDepth lines = 0 := by
    unfold braceDepth
    rw [sum_braceDelta_filter]
    exact sum_braceDelta_of_balanced _ h
  simp [getSuggestedIndentSize, h0]

/-- C7 witness: one preceding line holding a balanced delimiter sequence
suggests indent 0. -/
theorem C7_suggested_indent_clamped_witness :
    getSuggestedIndentSize [['{', '}', '(', ')']] = 0 :=
  C7_suggested_indent_clamped.2.2 [['{', '}', '(', ')']]
    (BalancedDelims.app ['{', '}'] ['(', ')']
      (BalancedDelims.wrap '{' [] (by decide) BalancedDelims.nil)
      (BalancedDelims.wrap '(' [] (by decide) BalancedDelims.nil))

theorem isBracePair_none_left (r : Option Char) : isBracePair none r = false := by
  cases r <;> rfl

theorem isBracePair_none_right (l : Option Char) : isBracePair l none = false := by
  cases l <;> rfl

theorem charAt_neg (s : List Char) (i : Int) (h : i < 0) : charAt s i = none := by
  unfold charAt
  rw [if_pos h]

theorem charAt_of_length_le (s : List Char) (i : Int) (h : (s.length : Int) ≤ i) :
    charAt s i = none := by
  unfold charAt
  rw [if_neg (by omega)]
  apply List.getElem?_eq_none
  omega

theorem addIndentation_nopair (val : List Char) (selStart : Int)
    (h : isBracePair (charAt val (selStart - 1 - 1)) (charAt val (selStart - 1 + 1)) = false) :
    addIndentation val selStart =
      (insertStringAt val (selStart - 1) (createIndentString (pairSuggested val selStart)),
        none) := by
  simp only [addIndentation]
  rw [h]
  simp [pairSuggested]

theorem addIndentation_pair (val : List Char) (selStart : Int)
    (hpair : isBracePair (charAt val (selStart - 1 - 1)) (charAt val (selStart - 1 + 1)) = true) :
    addIndentation val selStart =
      (insertStringAt val (selStart - 1)
        (createIndentString (pairSuggested val selStart) ++
          nlChar :: createIndentString (pairAdded val selStart)),
        some (selStart - 1 - (pairAdded val selStart : Int))) := by
  simp only [addIndentation]
  rw [hpair]
  simp [pairSuggested, pairAdded]

theorem charAt_nlInserted_left (doc : List Char) (sel : Nat) (h : sel ≤ doc.length) :
    charAt (nlInserted doc sel) ((sel : Int) - 1) = charAt doc ((sel : Int) - 1) := by
  unfold nlInserted
  cases sel with
  | zero =>
    rw [charAt_neg _ _ (by omega), charAt_neg _ _ (by omega)]
  | succ n =>
    have hidx : ((n + 1 : Nat) : Int) - 1 = ((n : Nat) : Int) := by push_cast; ring
    rw [hidx]
    unfold charAt
    rw [if_neg (by omega), if_neg (by omega)]
    have ht : ((n : Nat) : Int).toNat = n := by omega
    rw [ht]
    rw [List.getElem?_append_left (by rw [List.length_take]; omega)]
    exact List.getElem?_take_of_lt (Nat.lt_succ_self n)

theorem charAt_nlInserted_right (doc : List Char) (sel : Nat) (h : sel ≤ doc.length) :
    charAt (nlInserted doc sel) ((sel : Int) + 1) = charAt doc (sel : Int) := by
  unfold nlInserted charAt
  rw [if_neg (by omega), if_neg (by omega)]
  have h1 : ((sel : Int) + 1).toNat = sel + 1 := by omega
  have h2 : ((sel : Int)).toNat = sel := by omega
  rw [h1, h2]
  have hlen : (doc.take sel).length = sel := by rw [List.length_take]; omega
  rw [List.getElem?_append_right (by omega : (doc.take sel).length ≤ sel + 1)]
  rw [hlen]
  have hsub : sel + 1 - sel = 0 + 1 := by omega
  rw [hsub, List.getElem?_cons_succ, List.getElem?_drop, Nat.add_zero]

theorem take_nlInserted_self (doc : List Char) (sel : Nat) (h : sel ≤ doc.length) :
    (nlInserted doc sel).take sel = doc.take sel := by
  unfold nlInserted
  rw [List.take_append_of_le_length (by rw [List.length_take]; omega)]
  simp [List.take_take]

theorem take_nlInserted_succ (doc : List Char) (sel : Nat) (h : sel ≤ doc.length) :
    (nlInserted doc sel).take (sel + 1) = doc.take sel ++ [nlChar] := by
  unfold nlInserted
  have hsplit : doc.take sel ++ nlChar :: doc.drop sel =
      (doc.take sel ++ [nlChar]) ++ doc.drop sel := by simp
  have hlen : (doc.take sel ++ [nlChar]).length = sel + 1 := by
    rw [List.length_append, List.length_take]
    simp
    omega
  rw [hsplit, List.take_append_of_le_length (by omega)]
  exact List.take_of_length_le (by omega)

theorem drop_nlInserted_succ (doc : List Char) (sel : Nat) (h : sel ≤ doc.length) :
    (nlInserted doc sel).drop (sel + 1) = doc.drop sel := by
  unfold nlInserted
  have hsplit : doc.take sel ++ nlChar :: doc.drop sel =
      (doc.take sel ++ [nlChar]) ++ doc.drop sel := by simp
  have hlen : (doc.take sel ++ [nlChar]).length = sel + 1 := by
    rw [List.length_append, List.length_take]
    simp
    omega
  rw [hsplit, List.drop_append_of_le_length (by omega)]
  rw [List.drop_eq_nil_of_le (by omega)]
  rfl

theorem pairSuggested_nlInserted (doc : List Char) (sel : Nat) (h : sel ≤ doc.length) :
    pairSuggested (nlInserted doc sel) ((sel : Int) + 1) = suggestedAt doc sel := by
  unfold pairSuggested suggestedAt
  rw [show (sel : Int) + 1 - 1 = (sel : Int) by ring]
  rw [show ((sel : Int)).toNat = sel by omega]
  rw [take_nlInserted_self doc sel h]

theorem pairAdded_nlInserted (doc : List Char) (sel : Nat) (h : sel ≤ doc.length) :
    pairAdded (nlInserted doc sel) ((sel : Int) + 1) = addedSize doc sel := by
  unfold pairAdded addedSize
  rw [show (sel : Int) + 1 - 1 - 1 = (sel : Int) - 1 by ring]
  rw [charAt_nlInserted_left doc sel h]
  rw [pairSuggested_nlInserted doc sel h]

theorem enterPress_pair (doc : List Char) (sel : Nat) (hsel : sel ≤ doc.length)
    (hpair : isBracePair (charAt doc ((sel : Int) - 1)) (charAt doc (sel : Int)) = true) :
    enterPress doc sel =
      (doc.take sel ++ nlChar :: createIndentString (suggestedAt doc sel) ++
          nlChar :: createIndentString (addedSize doc sel) ++ doc.drop sel,
        some ((sel : Int) - (addedSize doc sel : Int))) := by
  unfold enterPress
  have hp' : isBracePair (charAt (nlInserted doc sel) ((sel : Int) + 1 - 1 - 1))
      (charAt (nlInserted doc sel) ((sel : Int) + 1 - 1 + 1)) = true := by
    rw [show (sel : Int) + 1 - 1 - 1 = (sel : Int) - 1 by ring,
      show (sel : Int) + 1 - 1 + 1 = (sel : Int) + 1 by ring,
      charAt_nlInserted_left doc sel hsel, charAt_nlInserted_right doc sel hsel]
    exact hpair
  rw [addIndentation_pair _ _ hp']
  rw [pairSuggested_nlInserted doc sel hsel, pairAdded_nlInserted doc sel hsel]
  unfold insertStringAt
  rw [show (sel : Int) + 1 - 1 + 1 = ((sel : Int) + 1) by ring]
  rw [show ((sel : Int) + 1).toNat = sel + 1 by omega]
  rw [take_nlInserted_succ doc sel hsel, drop_nlInserted_succ doc sel hsel]
  rw [show (sel : Int) + 1 - 1 = (sel : Int) by ring]
  simp [List.append_assoc]

/-- C1: on an Enter keypress where the characters left and right of the
cursor form a matched brace pair, the editor inserts two newlines rather
than one, the first inserted line carrying the inner indentation and the
second carrying the closing line's indentation, and for every such
document and cursor position the explicitly-set cursor offset is moved
backward from the newline offset by exactly the length of the second
line's indentation. -/
theorem C1_pair_expansion (doc : List Char) (sel : Nat) (hsel : sel ≤ doc.length)
    (hpair : isBracePair (charAt doc ((sel : Int) - 1)) (charAt doc (sel : Int)) = true) :
    (enterPress doc sel).1 =
      doc.take sel ++ nlChar :: createIndentString (suggestedAt doc sel) ++
        nlChar :: createIndentString (addedSize doc sel) ++ doc.drop sel
      ∧ (enterPress doc sel).2 =
        some ((sel : Int) - ((createIndentString (addedSize doc sel)).length : Int)) := by
  have h := enterPress_pair doc sel hsel hpair
  rw [h]
  exact ⟨rfl, by simp [createIndentString]⟩

/-- C1 witness: Enter between the matched paren pair of a two-character
document. -/
theorem C1_pair_expansion_witness :
    (1 : Nat) ≤ (['(', ')'] : List Char).length
      ∧ isBracePair (charAt ['(', ')'] ((1 : Int) - 1)) (charAt ['(', ')'] 1) = true
      ∧ (enterPress ['(', ')'] 1).1 = ['(', nlChar, spaceChar, spaceChar, nlChar, ')']
      ∧ (enterPress ['(', ')'] 1).2 = some 1 := by
  have h := C1_pair_expansion ['(', ')'] 1 (by decide) (by decide)
  refine ⟨by decide, by decide, ?_, ?_⟩
  · rw [h.1]; decide
  · rw [h.2]; decide

/-- C2 counterexample: expanding the matched curly pair of the
two-character document gives an inner line indented by the suggested
indent itself, which differs from the claimed suggested indent plus one
Indent Unit. -/
theorem C2_inner_indent_cex :
    (splitLines (enterPress ['{', '}'] 1).1)[1]? =
        some (createIndentString (suggestedAt ['{', '}'] 1))
      ∧ createIndentString (suggestedAt ['{', '}'] 1) ≠
        createIndentString (suggestedAt ['{', '}'] 1 + INDENT_SIZE) := by decide

/-- C2 amended: on a matched-pair Enter expansion the inner line is
indented by exactly the suggested indent (which already counts the opened
delimiter), the closing line by the suggested indent less one Indent Unit
clamped at zero for a regular opener, and both lines by the suggested
indent for a quote-like opener. -/
theorem C2_expansion_indents (doc : List Char) (sel : Nat) (hsel : sel ≤ doc.length)
    (hpair : isBracePair (charAt doc ((sel : Int) - 1)) (charAt doc (sel : Int)) = true) :
    (isRegularBraceO (charAt doc ((sel : Int) - 1)) = true →
        (enterPress doc sel).1 =
          doc.take sel ++ nlChar :: createIndentString (suggestedAt doc sel) ++
            nlChar :: createIndentString (suggestedAt doc sel - INDENT_SIZE) ++ doc.drop sel)
      ∧ (isRegularBraceO (charAt doc ((sel : Int) - 1)) = false →
        (enterPress doc sel).1 =
          doc.take sel ++ nlChar :: createIndentString (suggestedAt doc sel) ++
            nlChar :: createIndentString (suggestedAt doc sel) ++ doc.drop sel) := by
  have h := enterPress_pair doc sel hsel hpair
  constructor <;> intro hreg <;> rw [h] <;> simp [addedSize, hreg]

/-- C2 amended witness: the curly-pair expansion at offset 1 of the
two-character document, a regular opener. -/
theorem C2_expansion_indents_witness :
    isBracePair (charAt ['{', '}'] ((1 : Int) - 1)) (charAt ['{', '}'] 1) = true
      ∧ (enterPress ['{', '}'] 1).1 = ['{', nlChar, spaceChar, spaceChar, nlChar, '}'] := by
  have h := (C2_expansion_indents ['{', '}'] 1 (by decide) (by decide)).1 (by decide)
  refine ⟨by decide, ?_⟩
  rw [h]
  decide

/-- C4 counterexample: in the Enter scenario on the five-character document
the three-line expansion is produced, but the explicitly-set cursor offset
is 4 (the newline offset, moved back by the zero-length closing
indentation), not 7, the end of the second line. -/
theorem C4_cursor_cex :
    (enterPress ['f', '(', ')', '{', '}'] 4).1 =
        ['f', '(', ')', '{', nlChar, spaceChar, spaceChar, nlChar, '}']
      ∧ (enterPress ['f', '(', ')', '{', '}'] 4).2 = some 4
      ∧ ¬ (enterPress ['f', '(', ')', '{', '}'] 4).2 = some 7 := by decide

/-- C4 amended: the Enter scenario yields exactly the three claimed lines,
the second indented by one Indent Unit and the third unindented; the
code's explicitly-set cursor is offset 4 (the newline offset moved back by
the closing indentation's length, zero here), the final resting position
being left to the platform text input. -/
theorem C4_enter_scenario :
    splitLines (enterPress ['f', '(', ')', '{', '}'] 4).1 =
        [['f', '(', ')', '{'], indentString INDENT_SIZE 1, ['}']]
      ∧ (enterPress ['f', '(', ')', '{', '}'] 4).2 =
        some ((4 : Int) - ((createIndentString 0).length : Int)) := by decide

/-- C5 counterexample: after typing the opening curly at offset 5 the
document becomes the pair completion, but the explicitly-set cursor offset
is 5 (selection start less one), not 6. -/
theorem C5_cursor_cex :
    (addClosingBrace ['a', 'b', 'c', ':', ' ', '{'] 6 '{').1 =
        ['a', 'b', 'c', ':', ' ', '{', '}']
      ∧ (addClosingBrace ['a', 'b', 'c', ':', ' ', '{'] 6 '{').2 = some 5
      ∧ ¬ (addClosingBrace ['a', 'b', 'c', ':', ' ', '{'] 6 '{').2 = some 6 := by decide

/-- C5 amended: typing an opening delimiter inserts the table-defined
closing character at the selection offset, immediately after the moved
cursor position, and moves the explicitly-set cursor back by one to
selection start less one; in the scenario the document becomes the pair
completion with the explicitly-set cursor at 5. -/
theorem C5_closing_brace (val : List Char) (selStart : Int) (key : Char)
    (hk : isOpenBrace key = true) :
    applyEvent val (EditorEvent.braceKey key selStart) =
        val.take selStart.toNat ++ getCloseBraceStr key ++ val.drop selStart.toNat
      ∧ (addClosingBrace val selStart key).2 = some (selStart - 1) := by
  constructor
  · simp only [applyEvent]
    rw [if_pos hk]
    simp only [addClosingBrace, insertStringAt]
    rw [show selStart - 1 + 1 = selStart by ring]
  · rfl

/-- C5 amended witness: the concrete pair-completion scenario. -/
theorem C5_closing_brace_witness :
    isOpenBrace '{' = true
      ∧ applyEvent ['a', 'b', 'c', ':', ' ', '{'] (EditorEvent.braceKey '{' 6) =
        ['a', 'b', 'c', ':', ' ', '{', '}']
      ∧ (addClosingBrace ['a', 'b', 'c', ':', ' ', '{'] 6 '{').2 = some 5 := by
  have h := C5_closing_brace ['a', 'b', 'c', ':', ' ', '{'] 6 '{' (by decide)
  refine ⟨by decide, ?_, ?_⟩
  · rw [h.1]; decide
  · rw [h.2]; decide

/-- C10: the Enter-handling computation is total at document boundaries;
when the character position immediately left or immediately right of the
cursor falls outside the document the neighbor reads back as the empty
value, the brace-pair check on it is false (so no pair expansion is
triggered), and addIndentation returns the plain single-indentation
insertion. -/
theorem C10_boundary_defaults (val : List Char) (selStart : Int)
    (h0 : 0 ≤ selStart) (hlen : selStart ≤ (val.length : Int))
    (hb : selStart ≤ 1 ∨ (val.length : Int) ≤ selStart) :
    isBracePair (charAt val (selStart - 1 - 1)) (charAt val (selStart - 1 + 1)) = false
      ∧ addIndentation val selStart =
        (insertStringAt val (selStart - 1) (createIndentString (pairSuggested val selStart)),
          none) := by
  have hfalse :
      isBracePair (charAt val (selStart - 1 - 1)) (charAt val (selStart - 1 + 1)) = false := by
    rcases hb with hb | hb
    · rw [charAt_neg val _ (by omega)]
      exact isBracePair_none_left _
    · rw [charAt_of_length_le val (selStart - 1 + 1) (by omega)]
      exact isBracePair_none_right _
  exact ⟨hfalse, addIndentation_nopair val selStart hfalse⟩

/-- C10 witness: a selection at the right boundary of a two-character
document triggers no pair expansion and the computation returns the
unchanged document. -/
theorem C10_boundary_defaults_witness :
    ((2 : Int) ≤ 1 ∨ (((['a', 'b'] : List Char).length : Int) ≤ 2))
      ∧ addIndentation ['a', 'b'] 2 = (['a', 'b'], none) := by
  have h := (C10_boundary_defaults ['a', 'b'] 2 (by decide) (by decide) (by decide)).2
  refine ⟨by decide, ?_⟩
  rw [h]
  decide

end CodeEdit
